import Mathlib

/-!
# securedcontainer: the ContainerSecurity reconciler

A shallow embedding of `ContainerSecurityReconciler.Reconcile`
(`pkg/controllers/containersecurity_controller.go`).  The two helpers it calls
from `pkg/utils/scanner.go` run external processes (`trivy`, `buildah`) and
enter the embedding through their signatures and result types.

The reconciler talks to five collaborators: the API client (`Get`, `List`,
`Update`, `Status().Update`), the scanner (`utils.ScanImage`), the builder
(`utils.PatchImage`) and the clock (`metav1.Now`).  Each of them is a field of
`Env`, a state transformer over an arbitrary world `W`, so that the result of a
call may depend on everything that happened before it.  `Reconcile` threads the
world through the calls in source order and keeps two ghost logs: the flat list
of calls (`Event`) and one record per workload and per container with the
outcome of every call made for it.  Calls to the logger are not modelled.
-/

namespace SecuredContainer

/-! ## Data model -/

/-- Timestamps (`metav1.Time`), as a count of clock ticks. -/
abbrev Time := Nat

/-- Errors returned by the collaborators.  `notFound` is the API error for
which `apierrors.IsNotFound` holds; every other error is `other`. -/
inductive Err where
  | notFound
  | other (msg : String)
deriving DecidableEq

/-- One element of `TrivyResult.Vulnerabilities` (scanner.go, lines 13-20). -/
structure Vulnerability where
  VulnerabilityID : String
  PkgName : String
  InstalledVersion : String
  FixedVersion : String
  Severity : String
  Description : String
deriving DecidableEq

/-- The scan result of scanner.go, lines 12-21. -/
structure TrivyResult where
  Vulnerabilities : List Vulnerability
deriving DecidableEq

/-- A container of a pod template.  `Image` is the only field the reconciler
reads or writes; `Name` and `Rest` stand for every other field of
`corev1.Container`. -/
structure Container where
  Name : String
  Image : String
  Rest : String
deriving DecidableEq

/-- A deployment.  `Containers` is `Spec.Template.Spec.Containers`; `Rest`
stands for every field the reconciler never touches. -/
structure Deployment where
  Name : String
  Namespace : String
  Labels : List (String × String)
  Containers : List Container
  Rest : String
deriving DecidableEq

/-- Modelled from the spec: the declaration of `ContainerSecuritySpec`
(package `v1alpha1`) is not among the sources.  The fields are those the
reconciler reads: `Selector.MatchLabels`, `ScanInterval` (an integer number of
hours), `AutoPatch` and `TagSuffix`. -/
structure ContainerSecuritySpec where
  Selector : List (String × String)
  ScanInterval : Int
  AutoPatch : Bool
  TagSuffix : String
deriving DecidableEq

/-- Modelled from the spec: the declaration of `ContainerSecurityStatus`
(package `v1alpha1`) is not among the sources.  Both fields are pointers to a
timestamp in the reconciler, hence optional here. -/
structure ContainerSecurityStatus where
  LastScanTime : Option Time
  LastUpdateTime : Option Time
deriving DecidableEq

/-- Modelled from the spec: the declaration of `ContainerSecurity` (package
`v1alpha1`) is not among the sources. -/
structure ContainerSecurity where
  Namespace : String
  Name : String
  Spec : ContainerSecuritySpec
  Status : ContainerSecurityStatus
deriving DecidableEq

/-- The request of a reconciliation: `ctrl.Request` (a namespaced name). -/
structure Request where
  Namespace : String
  Name : String
deriving DecidableEq

/-- The value `ctrl.Result`; `RequeueAfter` is a `time.Duration`, a signed
64-bit count of nanoseconds. -/
structure Result where
  Requeue : Bool
  RequeueAfter : Int
deriving DecidableEq

/-- The zero value `ctrl.Result{}`. -/
def Result.zero : Result := ⟨false, 0⟩

/-! ## Durations -/

/-- Two's-complement reduction of an integer to the range of `int64`. -/
def wrapInt64 (x : Int) : Int := (x + 2 ^ 63) % 2 ^ 64 - 2 ^ 63

/-- The constant `time.Hour`, in nanoseconds. -/
def Hour : Int := 3600000000000

/-- The conversion `time.Duration(x)` of an integer. -/
def Duration (x : Int) : Int := wrapInt64 x

/-- Multiplication of two `time.Duration` values (`int64`, wrapping). -/
def Duration.mul (a b : Int) : Int := wrapInt64 (a * b)

/-! ## Collaborators -/

/-- The collaborators of the reconciler.  Every call takes the current world
and returns its result with the next world. -/
structure Env (W : Type) where
  /-- The call `r.Get(ctx, req.NamespacedName, &containerSecurity)`. -/
  Get : Request → W → Except Err ContainerSecurity × W
  /-- The call `r.List(ctx, &deployments, opts)` with the namespace and the
  match labels of the selector. -/
  ListDeployments : String → List (String × String) → W → Except Err (List Deployment) × W
  /-- The call `utils.ScanImage(ctx, imageRef)`. -/
  ScanImage : String → W → Except Err TrivyResult × W
  /-- The call `utils.PatchImage(ctx, sourceImage, targetImage)`; `none` is a
  nil error. -/
  PatchImage : String → String → W → Option Err × W
  /-- The call `r.Update(ctx, &deployment)`; `none` is a nil error. -/
  Update : Deployment → W → Option Err × W
  /-- The call `r.Status().Update(ctx, &containerSecurity)`; `none` is a nil
  error.  The spec of the object is the same after the call. -/
  StatusUpdate : ContainerSecurity → W → Option Err × W
  /-- The call `metav1.Now()`. -/
  Now : W → Time × W

/-- The function `client.IgnoreNotFound` applied to a non-nil error. -/
def IgnoreNotFound : Err → Option Err
  | Err.notFound => none
  | e => some e

/-! ## Ghost logs -/

/-- One call to a collaborator, with its arguments (`now` carries the time
that was read). -/
inductive Event where
  | get (req : Request)
  | list (ns : String) (sel : List (String × String))
  | scan (image : String)
  | patch (source target : String)
  | update (d : Deployment)
  | now (t : Time)
  | statusUpdate (cs : ContainerSecurity)
deriving DecidableEq

/-- A call to the builder and the error it returned. -/
structure PatchCall where
  Source : String
  Target : String
  Error : Option Err
deriving DecidableEq

/-- What happened to one container in one iteration of the inner loop. -/
structure ContainerStep where
  /-- The container as the iteration found it. -/
  Before : Container
  /-- The argument of the scanner call. -/
  Scanned : String
  /-- The outcome of the scanner call. -/
  Scan : Except Err TrivyResult
  /-- The builder call of the iteration, when there was one. -/
  Patch : Option PatchCall
  /-- The container as the iteration left it. -/
  After : Container

/-- What happened to one deployment in one iteration of the outer loop. -/
structure WorkloadStep where
  /-- The deployment as listed. -/
  Listed : Deployment
  /-- One record per iteration of the inner loop, in order. -/
  Steps : List ContainerStep
  /-- The object passed to `r.Update`. -/
  Written : Deployment
  /-- The error `r.Update` returned. -/
  UpdateErr : Option Err

/-- The world and the calls made so far. -/
structure St (W : Type) where
  world : W
  trace : List Event

/-! ## The reconciler -/

/-- The suffix of lines 68-71: `TagSuffix`, or `"-sc"` when it is empty. -/
def suffixOf (spec : ContainerSecuritySpec) : String :=
  if spec.TagSuffix = "" then "-sc" else spec.TagSuffix

/-- The body of the inner loop (lines 58-82) for one container. -/
def processContainer {W : Type} (env : Env W) (spec : ContainerSecuritySpec)
    (container : Container) (s : St W) : ContainerStep × St W :=
  match env.ScanImage container.Image s.world with
  | (Except.error err, w1) =>
    -- line 60-63: log and `continue`
    (⟨container, container.Image, Except.error err, none, container⟩,
      ⟨w1, s.trace ++ [Event.scan container.Image]⟩)
  | (Except.ok scanResult, w1) =>
    if 0 < scanResult.Vulnerabilities.length ∧ spec.AutoPatch = true then
      let newImage := container.Image ++ suffixOf spec
      match env.PatchImage container.Image newImage w1 with
      | (some err, w2) =>
        -- line 75-78: log and `continue`
        (⟨container, container.Image, Except.ok scanResult,
            some ⟨container.Image, newImage, some err⟩, container⟩,
          ⟨w2, s.trace ++ [Event.scan container.Image,
            Event.patch container.Image newImage]⟩)
      | (none, w2) =>
        -- line 81: the image of the container is overwritten in place
        (⟨container, container.Image, Except.ok scanResult,
            some ⟨container.Image, newImage, none⟩, { container with Image := newImage }⟩,
          ⟨w2, s.trace ++ [Event.scan container.Image,
            Event.patch container.Image newImage]⟩)
    else
      (⟨container, container.Image, Except.ok scanResult, none, container⟩,
        ⟨w1, s.trace ++ [Event.scan container.Image]⟩)

/-- The inner loop (line 57) over the containers of one deployment. -/
def processContainers {W : Type} (env : Env W) (spec : ContainerSecuritySpec) :
    List Container → St W → List ContainerStep × St W
  | [], s => ([], s)
  | c :: cs, s =>
    let r := processContainer env spec c s
    let rs := processContainers env spec cs r.2
    (r.1 :: rs.1, rs.2)

/-- The body of the outer loop (lines 57-89) for one deployment: the inner
loop, then the write of the whole object. -/
def processDeployment {W : Type} (env : Env W) (spec : ContainerSecuritySpec)
    (deployment : Deployment) (s : St W) : WorkloadStep × St W :=
  let r := processContainers env spec deployment.Containers s
  let written : Deployment := { deployment with Containers := r.1.map ContainerStep.After }
  match env.Update written r.2.world with
  | (e, w1) =>
    -- line 86-89: an error is logged, the loop goes on either way
    (⟨deployment, r.1, written, e⟩, ⟨w1, r.2.trace ++ [Event.update written]⟩)

/-- The outer loop (line 56) over the listed deployments. -/
def processDeployments {W : Type} (env : Env W) (spec : ContainerSecuritySpec) :
    List Deployment → St W → List WorkloadStep × St W
  | [], s => ([], s)
  | d :: ds, s =>
    let r := processDeployment env spec d s
    let rs := processDeployments env spec ds r.2
    (r.1 :: rs.1, rs.2)

/-- Everything observable of one call of `Reconcile`. -/
structure Outcome (W : Type) where
  /-- The returned `ctrl.Result`. -/
  result : Result
  /-- The returned error; `none` is nil. -/
  err : Option Err
  /-- The calls made, in order. -/
  trace : List Event
  /-- One record per deployment the outer loop went through. -/
  workloads : List WorkloadStep
  /-- The world after the call. -/
  world : W

/-- The status assignments of lines 94-97: `LastScanTime` is set to `now`,
and `LastUpdateTime` too when `AutoPatch` is on. -/
def stampStatus (containerSecurity : ContainerSecurity) (now : Time) : ContainerSecurity :=
  let cs1 : ContainerSecurity :=
    { containerSecurity with
      Status := { containerSecurity.Status with LastScanTime := some now } }
  if containerSecurity.Spec.AutoPatch = true then
    { cs1 with Status := { cs1.Status with LastUpdateTime := some now } }
  else cs1

/-- The method `ContainerSecurityReconciler.Reconcile` (lines 31-108).  The two
writes take a pointer and refresh the object from the answer of the server;
the deployment is not read again after its write, and the policy spec read on
line 106 is taken to be the fetched one. -/
def Reconcile {W : Type} (env : Env W) (req : Request) (w : W) : Outcome W :=
  match env.Get req w with
  | (Except.error err, w1) =>
    -- line 37
    ⟨Result.zero, IgnoreNotFound err, [Event.get req], [], w1⟩
  | (Except.ok containerSecurity, w1) =>
    match env.ListDeployments req.Namespace containerSecurity.Spec.Selector w1 with
    | (Except.error err, w2) =>
      -- line 52
      ⟨Result.zero, some err,
        [Event.get req, Event.list req.Namespace containerSecurity.Spec.Selector], [], w2⟩
    | (Except.ok deployments, w2) =>
      let pass := processDeployments env containerSecurity.Spec deployments
        ⟨w2, [Event.get req, Event.list req.Namespace containerSecurity.Spec.Selector]⟩
      -- lines 93-97
      let clock := env.Now pass.2.world
      let now := clock.1
      let cs2 := stampStatus containerSecurity now
      let trace := pass.2.trace ++ [Event.now now, Event.statusUpdate cs2]
      match env.StatusUpdate cs2 clock.2 with
      | (some err, w5) =>
        -- line 101
        ⟨Result.zero, some err, trace, pass.1, w5⟩
      | (none, w5) =>
        -- lines 105-107
        ⟨⟨false, Duration.mul (Duration containerSecurity.Spec.ScanInterval) Hour⟩,
          none, trace, pass.1, w5⟩

/-- The calls of one iteration of the inner loop: the scan, then the builder
call when there was one. -/
def ContainerStep.events (st : ContainerStep) : List Event :=
  Event.scan st.Scanned ::
    (match st.Patch with
     | none => []
     | some p => [Event.patch p.Source p.Target])

/-- The calls of one iteration of the outer loop: those of its containers in
order, then the write of the deployment. -/
def WorkloadStep.events (ws : WorkloadStep) : List Event :=
  (ws.Steps.map ContainerStep.events).flatten ++ [Event.update ws.Written]

/-- The image a container is left with, computed from its own image, the
outcome of its own scan, the outcome of its own builder call (`none` when the
builder was not called, `some none` when it returned no error) and the policy. -/
def finalImage (spec : ContainerSecuritySpec) (image : String)
    (scan : Except Err TrivyResult) (patch : Option (Option Err)) : String :=
  match scan with
  | Except.error _ => image
  | Except.ok r =>
    if 0 < r.Vulnerabilities.length ∧ spec.AutoPatch = true then
      match patch with
      | some none => image ++ suffixOf spec
      | _ => image
    else image

/-! ## A small concrete world -/

/-- A world for running the reconciler: the stored policy, the stored
deployments and a clock. -/
structure World where
  policy : Except Err ContainerSecurity
  listing : Except Err (List Deployment)
  clock : Nat

/-- Replace the stored deployment that has the name of `d`. -/
def World.store (w : World) (d : Deployment) : World :=
  { w with listing := w.listing.map fun ds => ds.map fun x => if x.Name = d.Name then d else x }

/-- An environment over `World`: the scanner, the builder and the two writes
answer from the given tables; a successful write of a deployment or of the
status is stored; each read of the clock advances it. -/
def simEnv (scan : String → Except Err TrivyResult) (patch : String → String → Option Err)
    (update : Deployment → Option Err) (status : ContainerSecurity → Option Err) : Env World where
  Get := fun _ w => (w.policy, w)
  ListDeployments := fun _ _ w => (w.listing, w)
  ScanImage := fun image w => (scan image, w)
  PatchImage := fun source target w => (patch source target, w)
  Update := fun d w => (update d, if update d = none then w.store d else w)
  StatusUpdate := fun cs w =>
    (status cs, if status cs = none then { w with policy := w.policy.map fun _ => cs } else w)
  Now := fun w => (w.clock + 1, { w with clock := w.clock + 1 })

/-! ## Reading the log -/

/-- The images the scanner was called on, in call order. -/
def scansOf : List Event → List String
  | [] => []
  | Event.scan image :: es => image :: scansOf es
  | _ :: es => scansOf es

/-- The (source, target) pairs the builder was called on, in call order. -/
def patchesOf : List Event → List (String × String)
  | [] => []
  | Event.patch source target :: es => (source, target) :: patchesOf es
  | _ :: es => patchesOf es

/-- The deployments passed to `r.Update`, in call order. -/
def updatesOf : List Event → List Deployment
  | [] => []
  | Event.update d :: es => d :: updatesOf es
  | _ :: es => updatesOf es

/-- The objects passed to `r.Status().Update`, in call order. -/
def statusUpdatesOf : List Event → List ContainerSecurity
  | [] => []
  | Event.statusUpdate cs :: es => cs :: statusUpdatesOf es
  | _ :: es => statusUpdatesOf es

/-- A container record counts as remediated when its builder call returned no
error. -/
def ContainerStep.Remediated (st : ContainerStep) : Prop :=
  ∃ p, st.Patch = some p ∧ p.Error = none

/-- The image references of a list of deployments, container by container. -/
def imagesOf (ds : List Deployment) : List (List String) :=
  ds.map fun d => d.Containers.map Container.Image

/-- The image of container `i` of deployment `k` of a list, when there is
one. -/
def imageAt (ds : List Deployment) (k i : Nat) : Option String :=
  ds[k]?.bind fun d => d.Containers[i]?.map Container.Image

/-- The record of container `i` of deployment `k` of a pass, when there is
one. -/
def stepAt (wss : List WorkloadStep) (k i : Nat) : Option ContainerStep :=
  wss[k]?.bind fun ws => ws.Steps[i]?

/-! ## Invariants of the loops -/

/-- What one iteration of the inner loop guarantees about its record. -/
structure StepInv (spec : ContainerSecuritySpec) (st : ContainerStep) : Prop where
  scanned : st.Scanned = st.Before.Image
  name : st.After.Name = st.Before.Name
  rest : st.After.Rest = st.Before.Rest
  scanErr : ∀ e, st.Scan = Except.error e → st.Patch = none ∧ st.After = st.Before
  idle : ∀ r, st.Scan = Except.ok r →
    ¬ (0 < r.Vulnerabilities.length ∧ spec.AutoPatch = true) →
    st.Patch = none ∧ st.After = st.Before
  fire : ∀ r, st.Scan = Except.ok r → 0 < r.Vulnerabilities.length → spec.AutoPatch = true →
    ∃ e, st.Patch = some ⟨st.Before.Image, st.Before.Image ++ suffixOf spec, e⟩ ∧
      (e = none → st.After = { st.Before with Image := st.Before.Image ++ suffixOf spec }) ∧
      (e ≠ none → st.After = st.Before)

/-- What one iteration of the outer loop guarantees about its record. -/
structure WorkInv (spec : ContainerSecuritySpec) (ws : WorkloadStep) : Prop where
  before : ws.Steps.map ContainerStep.Before = ws.Listed.Containers
  written : ws.Written = { ws.Listed with Containers := ws.Steps.map ContainerStep.After }
  steps : ∀ st ∈ ws.Steps, StepInv spec st

/-! ## Concrete inputs -/

/-- One vulnerability record. -/
def cve : Vulnerability := ⟨"CVE-2024-0001", "openssl", "3.0.1", "3.0.2", "HIGH", "overflow"⟩

/-- A policy with selector `app=web` and no status yet. -/
def policy (autoPatch : Bool) (tagSuffix : String) (scanInterval : Int) : ContainerSecurity :=
  ⟨"default", "web-policy", ⟨[("app", "web")], scanInterval, autoPatch, tagSuffix⟩, ⟨none, none⟩⟩

/-- The container `nginx:1.0`. -/
def nginx : Container := ⟨"web", "nginx:1.0", "ports: 80"⟩

/-- A deployment with the single container `nginx:1.0`. -/
def web : Deployment := ⟨"web", "default", [("app", "web")], [nginx], "replicas: 2"⟩

/-- The request for the policy above. -/
def request : Request := ⟨"default", "web-policy"⟩

/-- A world holding the policy and the deployment `web`. -/
def world (autoPatch : Bool) (tagSuffix : String) (scanInterval : Int) : World :=
  ⟨Except.ok (policy autoPatch tagSuffix scanInterval), Except.ok [web], 100⟩

/-- Everything succeeds and every scan reports one vulnerability. -/
def envVulnerable : Env World :=
  simEnv (fun _ => Except.ok ⟨[cve]⟩) (fun _ _ => none) (fun _ => none) (fun _ => none)

/-- Every scan succeeds without a finding. -/
def envClean : Env World :=
  simEnv (fun _ => Except.ok ⟨[]⟩) (fun _ _ => none) (fun _ => none) (fun _ => none)

/-- The container `redis:7`. -/
def redis : Container := ⟨"cache", "redis:7", "ports: 6379"⟩

/-- The container `busybox:1`. -/
def busybox : Container := ⟨"sidecar", "busybox:1", "command: sleep"⟩

/-- A deployment with three containers. -/
def api : Deployment :=
  ⟨"api", "default", [("app", "web"), ("tier", "backend")], [redis, busybox, nginx], "replicas: 1"⟩

/-- A world holding the policy and the deployments `api` and `web`. -/
def worldTwo (autoPatch : Bool) (tagSuffix : String) : World :=
  ⟨Except.ok (policy autoPatch tagSuffix 24), Except.ok [api, web], 100⟩

/-- The scan of `redis:7` fails, the build from `busybox:1` fails, the write of
`api` fails; everything else succeeds and every other scan reports one
vulnerability. -/
def envFlaky : Env World :=
  simEnv
    (fun image => if image = "redis:7" then Except.error (Err.other "trivy: exit status 1")
      else Except.ok ⟨[cve]⟩)
    (fun source _ => if source = "busybox:1" then some (Err.other "buildah: exit status 125")
      else none)
    (fun d => if d.Name = "api" then some (Err.other "conflict") else none)
    (fun _ => none)

/-- The record of `nginx:1.0` when it is remediated with the default suffix. -/
def stepPatched : ContainerStep :=
  ⟨nginx, "nginx:1.0", Except.ok ⟨[cve]⟩, some ⟨"nginx:1.0", "nginx:1.0-sc", none⟩,
    { nginx with Image := "nginx:1.0-sc" }⟩

/-- The record of `web` when its container is remediated and the write
succeeds. -/
def runPatched : WorkloadStep :=
  ⟨web, [stepPatched], { web with Containers := [{ nginx with Image := "nginx:1.0-sc" }] }, none⟩

/-- The record of `nginx:1.0` when its scan finds nothing. -/
def stepClean : ContainerStep :=
  ⟨nginx, "nginx:1.0", Except.ok ⟨[]⟩, none, nginx⟩

/-- The record of `web` when the scan of its container finds nothing. -/
def runClean : WorkloadStep := ⟨web, [stepClean], web, none⟩

/-- A deployment with a container that scans clean and one that does not. -/
def cache : Deployment :=
  ⟨"cache", "default", [("app", "web")], [redis, nginx], "replicas: 3"⟩

/-- Everything succeeds; the scan of `redis:7` finds nothing, every other
scan reports one vulnerability. -/
def envMixed : Env World :=
  simEnv (fun image => if image = "redis:7" then Except.ok ⟨[]⟩ else Except.ok ⟨[cve]⟩)
    (fun _ _ => none) (fun _ => none) (fun _ => none)

/-- The world before pass `j` when `envMixed` reconciles again and again,
starting from a world that holds the policy and the deployment `cache`. -/
def worldAt : Nat → World
  | 0 => ⟨Except.ok (policy true "" 24), Except.ok [cache], 100⟩
  | j + 1 => (Reconcile envMixed request (worldAt j)).world

/-- A policy with `AutoPatch` off whose `LastUpdateTime` is already 101. -/
def policyStamped : ContainerSecurity :=
  { policy false "" 24 with Status := ⟨some 90, some 101⟩ }

/-- A world holding `policyStamped` whose clock reads 101 next. -/
def worldStamped : World := ⟨Except.ok policyStamped, Except.ok [web], 100⟩

/-- The policy stored in a world (the initial policy when the fetch fails). -/
def World.policyOr (w : World) : ContainerSecurity :=
  match w.policy with
  | Except.ok p => p
  | Except.error _ => SecuredContainer.policy true "" 24

/-- The deployments stored in a world (none when the listing fails). -/
def World.deployments (w : World) : List Deployment :=
  match w.listing with
  | Except.ok ds => ds
  | Except.error _ => []

/-- A world in which the policy is gone. -/
def worldGone : World := ⟨Except.error Err.notFound, Except.ok [web], 100⟩

/-- A world in which the fetch of the policy times out. -/
def worldGetFails : World := ⟨Except.error (Err.other "timeout"), Except.ok [web], 100⟩

/-- A world in which the listing of deployments fails. -/
def worldListFails : World :=
  ⟨Except.ok (policy true "" 24), Except.error (Err.other "timeout"), 100⟩

/-- Everything succeeds but the write of the status. -/
def envStatusFails : Env World :=
  simEnv (fun _ => Except.ok ⟨[cve]⟩) (fun _ _ => none) (fun _ => none)
    (fun _ => some (Err.other "conflict"))

/-! ## The loops, step by step -/

theorem processContainer_before {W : Type} (env : Env W) (spec : ContainerSecuritySpec)
    (c : Container) (s : St W) : (processContainer env spec c s).1.Before = c := by
  unfold processContainer
  split
  · rfl
  · split
    · dsimp only
      split <;> rfl
    · rfl

theorem processContainer_scan {W : Type} (env : Env W) (spec : ContainerSecuritySpec)
    (c : Container) (s : St W) :
    (processContainer env spec c s).1.Scan = (env.ScanImage c.Image s.world).1 := by
  unfold processContainer
  split
  · rename_i h; rw [h]
  · rename_i h; rw [h]
    split
    · dsimp only
      split <;> rfl
    · rfl

theorem processContainer_inv {W : Type} (env : Env W) (spec : ContainerSecuritySpec)
    (c : Container) (s : St W) : StepInv spec (processContainer env spec c s).1 := by
  unfold processContainer
  split
  · constructor <;> simp
  · rename_i r w1 _
    split
    · rename_i htrig
      dsimp only
      split
      · constructor <;> simp
        exact htrig
      · constructor <;> simp
        exact htrig
    · rename_i htrig
      constructor <;> simp
      · intro h1
        by_contra h2
        exact htrig ⟨h1, by simpa using h2⟩

theorem processContainer_trace {W : Type} (env : Env W) (spec : ContainerSecuritySpec)
    (c : Container) (s : St W) :
    (processContainer env spec c s).2.trace =
      s.trace ++ (processContainer env spec c s).1.events := by
  unfold processContainer
  split
  · simp [ContainerStep.events]
  · split
    · dsimp only
      split <;> simp [ContainerStep.events]
    · simp [ContainerStep.events]

theorem processContainers_before {W : Type} (env : Env W) (spec : ContainerSecuritySpec)
    (cs : List Container) (s : St W) :
    (processContainers env spec cs s).1.map ContainerStep.Before = cs := by
  induction cs generalizing s with
  | nil => rfl
  | cons c cs ih =>
    simp only [processContainers, List.map_cons, processContainer_before, ih]

theorem processContainers_inv {W : Type} (env : Env W) (spec : ContainerSecuritySpec)
    (cs : List Container) (s : St W) :
    ∀ st ∈ (processContainers env spec cs s).1, StepInv spec st := by
  induction cs generalizing s with
  | nil => intro st h; simp [processContainers] at h
  | cons c cs ih =>
    intro st h
    simp only [processContainers, List.mem_cons] at h
    rcases h with h | h
    · rw [h]; exact processContainer_inv env spec c s
    · exact ih _ st h

theorem processContainers_trace {W : Type} (env : Env W) (spec : ContainerSecuritySpec)
    (cs : List Container) (s : St W) :
    (processContainers env spec cs s).2.trace =
      s.trace ++ ((processContainers env spec cs s).1.map ContainerStep.events).flatten := by
  induction cs generalizing s with
  | nil => simp [processContainers]
  | cons c cs ih =>
    simp only [processContainers, List.map_cons, List.flatten_cons, ih,
      processContainer_trace, List.append_assoc]

theorem processDeployment_listed {W : Type} (env : Env W) (spec : ContainerSecuritySpec)
    (d : Deployment) (s : St W) : (processDeployment env spec d s).1.Listed = d := rfl

theorem processDeployment_inv {W : Type} (env : Env W) (spec : ContainerSecuritySpec)
    (d : Deployment) (s : St W) : WorkInv spec (processDeployment env spec d s).1 where
  before := processContainers_before env spec d.Containers s
  written := rfl
  steps := processContainers_inv env spec d.Containers s

theorem processDeployment_trace {W : Type} (env : Env W) (spec : ContainerSecuritySpec)
    (d : Deployment) (s : St W) :
    (processDeployment env spec d s).2.trace =
      s.trace ++ (processDeployment env spec d s).1.events := by
  simp only [processDeployment, WorkloadStep.events, processContainers_trace,
    List.append_assoc]

theorem processDeployments_listed {W : Type} (env : Env W) (spec : ContainerSecuritySpec)
    (ds : List Deployment) (s : St W) :
    (processDeployments env spec ds s).1.map WorkloadStep.Listed = ds := by
  induction ds generalizing s with
  | nil => rfl
  | cons d ds ih =>
    simp only [processDeployments, List.map_cons, processDeployment_listed, ih]

theorem processDeployments_inv {W : Type} (env : Env W) (spec : ContainerSecuritySpec)
    (ds : List Deployment) (s : St W) :
    ∀ ws ∈ (processDeployments env spec ds s).1, WorkInv spec ws := by
  induction ds generalizing s with
  | nil => intro ws h; simp [processDeployments] at h
  | cons d ds ih =>
    intro ws h
    simp only [processDeployments, List.mem_cons] at h
    rcases h with h | h
    · rw [h]; exact processDeployment_inv env spec d s
    · exact ih _ ws h

theorem processDeployments_trace {W : Type} (env : Env W) (spec : ContainerSecuritySpec)
    (ds : List Deployment) (s : St W) :
    (processDeployments env spec ds s).2.trace =
      s.trace ++ ((processDeployments env spec ds s).1.map WorkloadStep.events).flatten := by
  induction ds generalizing s with
  | nil => simp [processDeployments]
  | cons d ds ih =>
    simp only [processDeployments, List.map_cons, List.flatten_cons, ih,
      processDeployment_trace, List.append_assoc]

/-! ## Projections of the log -/

theorem scansOf_append (a b : List Event) : scansOf (a ++ b) = scansOf a ++ scansOf b := by
  induction a with
  | nil => rfl
  | cons e a ih => cases e <;> simp [scansOf, ih]

theorem patchesOf_append (a b : List Event) :
    patchesOf (a ++ b) = patchesOf a ++ patchesOf b := by
  induction a with
  | nil => rfl
  | cons e a ih => cases e <;> simp [patchesOf, ih]

theorem updatesOf_append (a b : List Event) :
    updatesOf (a ++ b) = updatesOf a ++ updatesOf b := by
  induction a with
  | nil => rfl
  | cons e a ih => cases e <;> simp [updatesOf, ih]

theorem statusUpdatesOf_append (a b : List Event) :
    statusUpdatesOf (a ++ b) = statusUpdatesOf a ++ statusUpdatesOf b := by
  induction a with
  | nil => rfl
  | cons e a ih => cases e <;> simp [statusUpdatesOf, ih]

theorem scansOf_step (st : ContainerStep) : scansOf st.events = [st.Scanned] := by
  unfold ContainerStep.events
  split <;> rfl

theorem updatesOf_step (st : ContainerStep) : updatesOf st.events = [] := by
  unfold ContainerStep.events
  split <;> rfl

theorem statusUpdatesOf_step (st : ContainerStep) : statusUpdatesOf st.events = [] := by
  unfold ContainerStep.events
  split <;> rfl

theorem patchesOf_step_none (st : ContainerStep) (h : st.Patch = none) :
    patchesOf st.events = [] := by
  unfold ContainerStep.events
  rw [h]; rfl

theorem scansOf_steps (sts : List ContainerStep) :
    scansOf (sts.map ContainerStep.events).flatten = sts.map ContainerStep.Scanned := by
  induction sts with
  | nil => rfl
  | cons st sts ih => simp [scansOf_append, scansOf_step, ih]

theorem updatesOf_steps (sts : List ContainerStep) :
    updatesOf (sts.map ContainerStep.events).flatten = [] := by
  induction sts with
  | nil => rfl
  | cons st sts ih => simp [updatesOf_append, updatesOf_step, ih]

theorem statusUpdatesOf_steps (sts : List ContainerStep) :
    statusUpdatesOf (sts.map ContainerStep.events).flatten = [] := by
  induction sts with
  | nil => rfl
  | cons st sts ih => simp [statusUpdatesOf_append, statusUpdatesOf_step, ih]

theorem patchesOf_steps_none (sts : List ContainerStep)
    (h : ∀ st ∈ sts, st.Patch = none) :
    patchesOf (sts.map ContainerStep.events).flatten = [] := by
  induction sts with
  | nil => rfl
  | cons st sts ih =>
    simp only [List.map_cons, List.flatten_cons, patchesOf_append]
    rw [patchesOf_step_none st (h st (List.mem_cons_self _ _)),
      ih (fun x hx => h x (List.mem_cons_of_mem _ hx))]
    rfl

theorem scansOf_workloads (wss : List WorkloadStep) :
    scansOf (wss.map WorkloadStep.events).flatten =
      (wss.map fun ws => ws.Steps.map ContainerStep.Scanned).flatten := by
  induction wss with
  | nil => rfl
  | cons ws wss ih =>
    simp [WorkloadStep.events, scansOf_append, scansOf_steps, ih, scansOf]

theorem updatesOf_workloads (wss : List WorkloadStep) :
    updatesOf (wss.map WorkloadStep.events).flatten = wss.map WorkloadStep.Written := by
  induction wss with
  | nil => rfl
  | cons ws wss ih =>
    simp [WorkloadStep.events, updatesOf_append, updatesOf_steps, ih, updatesOf]

theorem statusUpdatesOf_workloads (wss : List WorkloadStep) :
    statusUpdatesOf (wss.map WorkloadStep.events).flatten = [] := by
  induction wss with
  | nil => rfl
  | cons ws wss ih =>
    simp [WorkloadStep.events, statusUpdatesOf_append, statusUpdatesOf_steps, ih,
      statusUpdatesOf]

theorem patchesOf_workloads_none (wss : List WorkloadStep)
    (h : ∀ ws ∈ wss, ∀ st ∈ ws.Steps, st.Patch = none) :
    patchesOf (wss.map WorkloadStep.events).flatten = [] := by
  induction wss with
  | nil => rfl
  | cons ws wss ih =>
    simp only [List.map_cons, List.flatten_cons, patchesOf_append, WorkloadStep.events]
    rw [patchesOf_steps_none ws.Steps (h ws (List.mem_cons_self _ _)),
      ih (fun x hx => h x (List.mem_cons_of_mem _ hx))]
    rfl

/-! ## The shape of a full pass -/

/-- When the fetch and the listing succeed, `Reconcile` runs the outer loop
over the listed deployments, reads the clock once, submits one status and
returns according to the outcome of that write. -/
theorem Reconcile_pass {W : Type} (env : Env W) (req : Request) (w w1 w2 : W)
    (cs : ContainerSecurity) (ds : List Deployment)
    (hget : env.Get req w = (Except.ok cs, w1))
    (hlist : env.ListDeployments req.Namespace cs.Spec.Selector w1 = (Except.ok ds, w2)) :
    ∃ (t : Time) (cs2 : ContainerSecurity) (e : Option Err),
      (Reconcile env req w).workloads =
        (processDeployments env cs.Spec ds
          ⟨w2, [Event.get req, Event.list req.Namespace cs.Spec.Selector]⟩).1 ∧
      (Reconcile env req w).trace =
        [Event.get req, Event.list req.Namespace cs.Spec.Selector] ++
          ((Reconcile env req w).workloads.map WorkloadStep.events).flatten ++
          [Event.now t, Event.statusUpdate cs2] ∧
      cs2.Namespace = cs.Namespace ∧ cs2.Name = cs.Name ∧ cs2.Spec = cs.Spec ∧
      cs2.Status.LastScanTime = some t ∧
      (cs.Spec.AutoPatch = true → cs2.Status.LastUpdateTime = some t) ∧
      (cs.Spec.AutoPatch = false → cs2.Status.LastUpdateTime = cs.Status.LastUpdateTime) ∧
      (Reconcile env req w).err = e ∧
      (e = none → (Reconcile env req w).result =
        ⟨false, Duration.mul (Duration cs.Spec.ScanInterval) Hour⟩) ∧
      (e ≠ none → (Reconcile env req w).result = Result.zero) := by
  refine ⟨(env.Now (processDeployments env cs.Spec ds
      ⟨w2, [Event.get req, Event.list req.Namespace cs.Spec.Selector]⟩).2.world).1,
    stampStatus cs (env.Now (processDeployments env cs.Spec ds
      ⟨w2, [Event.get req, Event.list req.Namespace cs.Spec.Selector]⟩).2.world).1,
    (Reconcile env req w).err, ?_, ?_, ?_, ?_, ?_, ?_, ?_, ?_, rfl, ?_, ?_⟩
  · unfold Reconcile
    simp only [hget, hlist]
    split <;> rfl
  · unfold Reconcile
    simp only [hget, hlist]
    split <;> simp only [processDeployments_trace, List.append_assoc]
  · unfold stampStatus; split <;> rfl
  · unfold stampStatus; split <;> rfl
  · unfold stampStatus; split <;> rfl
  · unfold stampStatus; split <;> rfl
  · intro h; simp [stampStatus, h]
  · intro h; simp [stampStatus, h]
  · unfold Reconcile
    simp only [hget, hlist]
    split <;> simp
  · unfold Reconcile
    simp only [hget, hlist]
    split <;> simp

/-! ## Consequences of the invariants -/

theorem StepInv.unchanged_of_no_patch {spec : ContainerSecuritySpec} {st : ContainerStep}
    (h : StepInv spec st) (hp : ¬ st.Remediated) : st.After = st.Before := by
  rcases hs : st.Scan with e | r
  · exact (h.scanErr e hs).2
  · by_cases htrig : 0 < r.Vulnerabilities.length ∧ spec.AutoPatch = true
    · obtain ⟨e, hpatch, -, hfail⟩ := h.fire r hs htrig.1 htrig.2
      apply hfail
      intro he
      exact hp ⟨_, hpatch, he⟩
    · exact (h.idle r hs htrig).2

theorem StepInv.detection_only {spec : ContainerSecuritySpec} {st : ContainerStep}
    (h : StepInv spec st) (hauto : spec.AutoPatch = false) :
    st.Patch = none ∧ st.After = st.Before := by
  rcases hs : st.Scan with e | r
  · exact h.scanErr e hs
  · exact h.idle r hs (by simp [hauto])

theorem StepInv.finalImage_eq {spec : ContainerSecuritySpec} {st : ContainerStep}
    (h : StepInv spec st) :
    st.After.Image =
      finalImage spec st.Before.Image st.Scan (st.Patch.map PatchCall.Error) := by
  unfold finalImage
  rcases hs : st.Scan with e | r
  · simp [(h.scanErr e hs).2]
  · by_cases htrig : 0 < r.Vulnerabilities.length ∧ spec.AutoPatch = true
    · obtain ⟨e, hpatch, hok, hfail⟩ := h.fire r hs htrig.1 htrig.2
      simp only [htrig, and_self, if_true, hpatch, Option.map_some']
      cases e with
      | none => rw [hok rfl]
      | some err => rw [hfail (by simp)]
    · simp only [htrig, if_false]
      rw [(h.idle r hs htrig).2]

theorem WorkInv.written_eq_listed {spec : ContainerSecuritySpec} {ws : WorkloadStep}
    (h : WorkInv spec ws) (hsame : ∀ st ∈ ws.Steps, st.After = st.Before) :
    ws.Written = ws.Listed := by
  have hmap : ws.Steps.map ContainerStep.After = ws.Steps.map ContainerStep.Before :=
    List.map_congr_left hsame
  rw [h.written, hmap, h.before]

theorem WorkInv.scanned {spec : ContainerSecuritySpec} {ws : WorkloadStep}
    (h : WorkInv spec ws) :
    ws.Steps.map ContainerStep.Scanned = ws.Listed.Containers.map Container.Image := by
  rw [← h.before, List.map_map]
  exact List.map_congr_left fun st hst => (h.steps st hst).scanned

theorem StepInv.remediated {spec : ContainerSecuritySpec} {st : ContainerStep}
    (h : StepInv spec st) (hp : st.Remediated) :
    st.After = { st.Before with Image := st.Before.Image ++ suffixOf spec } := by
  obtain ⟨p, hpatch, herr⟩ := hp
  rcases hs : st.Scan with e | r
  · rw [(h.scanErr e hs).1] at hpatch
    cases hpatch
  · by_cases htrig : 0 < r.Vulnerabilities.length ∧ spec.AutoPatch = true
    · obtain ⟨e, hpatch2, hok, -⟩ := h.fire r hs htrig.1 htrig.2
      rw [hpatch] at hpatch2
      cases hpatch2
      exact hok herr
    · rw [(h.idle r hs htrig).1] at hpatch
      cases hpatch

theorem Reconcile_inv {W : Type} (env : Env W) (req : Request) (w w1 w2 : W)
    (cs : ContainerSecurity) (ds : List Deployment)
    (hget : env.Get req w = (Except.ok cs, w1))
    (hlist : env.ListDeployments req.Namespace cs.Spec.Selector w1 = (Except.ok ds, w2)) :
    (Reconcile env req w).workloads.map WorkloadStep.Listed = ds ∧
    ∀ ws ∈ (Reconcile env req w).workloads, WorkInv cs.Spec ws := by
  obtain ⟨t, cs2, e, hw, -⟩ := Reconcile_pass env req w w1 w2 cs ds hget hlist
  rw [hw]
  exact ⟨processDeployments_listed env cs.Spec ds _, processDeployments_inv env cs.Spec ds _⟩

theorem Reconcile_trace {W : Type} (env : Env W) (req : Request) (w w1 w2 : W)
    (cs : ContainerSecurity) (ds : List Deployment)
    (hget : env.Get req w = (Except.ok cs, w1))
    (hlist : env.ListDeployments req.Namespace cs.Spec.Selector w1 = (Except.ok ds, w2)) :
    ∃ (t : Time) (cs2 : ContainerSecurity),
      (Reconcile env req w).trace =
        [Event.get req, Event.list req.Namespace cs.Spec.Selector] ++
          ((Reconcile env req w).workloads.map WorkloadStep.events).flatten ++
          [Event.now t, Event.statusUpdate cs2] := by
  obtain ⟨t, cs2, e, -, htr, -⟩ := Reconcile_pass env req w w1 w2 cs ds hget hlist
  exact ⟨t, cs2, htr⟩

theorem Reconcile_get_error {W : Type} (env : Env W) (req : Request) (w w1 : W) (e : Err)
    (hget : env.Get req w = (Except.error e, w1)) :
    Reconcile env req w = ⟨Result.zero, IgnoreNotFound e, [Event.get req], [], w1⟩ := by
  unfold Reconcile
  simp only [hget]

theorem Reconcile_list_error {W : Type} (env : Env W) (req : Request) (w w1 w2 : W)
    (cs : ContainerSecurity) (e : Err)
    (hget : env.Get req w = (Except.ok cs, w1))
    (hlist : env.ListDeployments req.Namespace cs.Spec.Selector w1 = (Except.error e, w2)) :
    Reconcile env req w =
      ⟨Result.zero, some e, [Event.get req, Event.list req.Namespace cs.Spec.Selector], [], w2⟩ := by
  unfold Reconcile
  simp only [hget, hlist]

theorem Reconcile_err {W : Type} (env : Env W) (req : Request) (w w1 w2 : W)
    (cs : ContainerSecurity) (ds : List Deployment)
    (hget : env.Get req w = (Except.ok cs, w1))
    (hlist : env.ListDeployments req.Namespace cs.Spec.Selector w1 = (Except.ok ds, w2)) :
    (Reconcile env req w).err =
      (env.StatusUpdate
        (stampStatus cs (env.Now (processDeployments env cs.Spec ds
          ⟨w2, [Event.get req, Event.list req.Namespace cs.Spec.Selector]⟩).2.world).1)
        (env.Now (processDeployments env cs.Spec ds
          ⟨w2, [Event.get req, Event.list req.Namespace cs.Spec.Selector]⟩).2.world).2).1 := by
  unfold Reconcile
  simp only [hget, hlist]
  split
  · rename_i h; rw [h]
  · rename_i h; rw [h]

theorem wrapInt64_of_range (x : Int) (hlo : -9223372036854775808 ≤ x)
    (hhi : x < 9223372036854775808) : wrapInt64 x = x := by
  unfold wrapInt64
  norm_num
  omega

theorem join_replicate_succ (s : String) (n : Nat) :
    String.join (List.replicate (n + 1) s) = String.join (List.replicate n s) ++ s := by
  apply String.ext
  simp [String.data_join, List.replicate_succ', String.data_append]

theorem suffixOf_ne_empty (spec : ContainerSecuritySpec) : suffixOf spec ≠ "" := by
  unfold suffixOf
  split
  · decide
  · assumption

theorem append_suffix_ne (x y s : String) (hs : s ≠ "") : x ++ (y ++ s) ≠ x ++ y := by
  intro h
  have hlen := congrArg String.length h
  simp only [String.length_append] at hlen
  have hz : s.length = 0 := by omega
  apply hs
  apply String.ext
  exact List.length_eq_zero.mp hz

/-- One pass appends the suffix to the image of a container whose scan
reports a vulnerability and whose builder call succeeds, whatever happens to
the other containers. -/
theorem Reconcile_imageAt {W : Type} (env : Env W) (req : Request) (w w1 w2 : W)
    (cs : ContainerSecurity) (ds : List Deployment)
    (hget : env.Get req w = (Except.ok cs, w1))
    (hlist : env.ListDeployments req.Namespace cs.Spec.Selector w1 = (Except.ok ds, w2))
    (hauto : cs.Spec.AutoPatch = true) (k i : Nat) (x : String)
    (himg : imageAt ds k i = some x)
    (hvuln : ∀ st, stepAt (Reconcile env req w).workloads k i = some st →
      ∃ r, st.Scan = Except.ok r ∧ 0 < r.Vulnerabilities.length)
    (hbuild : ∀ st, stepAt (Reconcile env req w).workloads k i = some st →
      ∀ p, st.Patch = some p → p.Error = none) :
    imageAt ((Reconcile env req w).workloads.map WorkloadStep.Written) k i =
      some (x ++ suffixOf cs.Spec) := by
  obtain ⟨hl, hinv⟩ := Reconcile_inv env req w w1 w2 cs ds hget hlist
  unfold imageAt at himg ⊢
  rw [← hl, List.getElem?_map] at himg
  rw [List.getElem?_map]
  cases hk : (Reconcile env req w).workloads[k]? with
  | none => rw [hk] at himg; cases himg
  | some ws =>
    have hws := hinv ws (List.getElem?_mem hk)
    rw [hk] at himg
    simp only [Option.map_some', Option.some_bind] at himg ⊢
    rw [← hws.before, List.getElem?_map] at himg
    rw [hws.written]
    simp only [List.getElem?_map]
    cases hi : ws.Steps[i]? with
    | none => rw [hi] at himg; cases himg
    | some st =>
      rw [hi] at himg
      simp only [Option.map_some', Option.some.injEq] at himg ⊢
      have hat : stepAt (Reconcile env req w).workloads k i = some st := by
        simp only [stepAt, hk, Option.some_bind, hi]
      obtain ⟨r, hr, hv⟩ := hvuln st hat
      obtain ⟨e, hp, hok, -⟩ := (hws.steps st (List.getElem?_mem hi)).fire r hr hv hauto
      rw [hok (hbuild st hat _ hp), ← himg]

theorem Reconcile_updates {W : Type} (env : Env W) (req : Request) (w w1 w2 : W)
    (cs : ContainerSecurity) (ds : List Deployment)
    (hget : env.Get req w = (Except.ok cs, w1))
    (hlist : env.ListDeployments req.Namespace cs.Spec.Selector w1 = (Except.ok ds, w2)) :
    updatesOf (Reconcile env req w).trace =
      (Reconcile env req w).workloads.map WorkloadStep.Written := by
  obtain ⟨t, cs2, htr⟩ := Reconcile_trace env req w w1 w2 cs ds hget hlist
  rw [htr, updatesOf_append, updatesOf_append, updatesOf_workloads]
  show [] ++ _ ++ [] = _
  rw [List.nil_append, List.append_nil]

/-! ## The claims -/

/-- C1: in a pass of `Reconcile` (fetch and listing succeeded), for every
workload record and every container record of it: the records line up with the
listed and the written containers, and if the scan of the container succeeded
with at least one vulnerability and `AutoPatch` is on, then the builder was
called with source the original image and target the original image followed
by the suffix (`TagSuffix`, or `-sc` when that is empty); if that call
succeeded, the container written back has exactly that target as its image. -/
theorem C1_patched_image {W : Type} (env : Env W) (req : Request) (w w1 w2 : W)
    (cs : ContainerSecurity) (ds : List Deployment)
    (hget : env.Get req w = (Except.ok cs, w1))
    (hlist : env.ListDeployments req.Namespace cs.Spec.Selector w1 = (Except.ok ds, w2))
    (ws : WorkloadStep) (hws : ws ∈ (Reconcile env req w).workloads)
    (st : ContainerStep) (hst : st ∈ ws.Steps) (r : TrivyResult)
    (hscan : st.Scan = Except.ok r) (hvuln : 0 < r.Vulnerabilities.length)
    (hauto : cs.Spec.AutoPatch = true) :
    (Reconcile env req w).workloads.map WorkloadStep.Listed = ds ∧
    ws.Steps.map ContainerStep.Before = ws.Listed.Containers ∧
    ws.Written.Containers = ws.Steps.map ContainerStep.After ∧
    ∃ e, st.Patch = some ⟨st.Before.Image,
        st.Before.Image ++ (if cs.Spec.TagSuffix = "" then "-sc" else cs.Spec.TagSuffix), e⟩ ∧
      (e = none → st.After.Image =
        st.Before.Image ++ (if cs.Spec.TagSuffix = "" then "-sc" else cs.Spec.TagSuffix)) := by
  obtain ⟨t, cs2, e, hw, -⟩ := Reconcile_pass env req w w1 w2 cs ds hget hlist
  rw [hw] at hws ⊢
  have hinv := processDeployments_inv env cs.Spec ds _ ws hws
  refine ⟨processDeployments_listed env cs.Spec ds _, hinv.before, ?_, ?_⟩
  · rw [hinv.written]
  · obtain ⟨e, hp, hok, -⟩ := (hinv.steps st hst).fire r hscan hvuln hauto
    refine ⟨e, hp, fun he => ?_⟩
    rw [hok he]
    rfl

/-- C1 on the scenario of the spec: `nginx:1.0`, an empty `TagSuffix`, one
vulnerability, a builder that succeeds; the image written back is
`nginx:1.0-sc`. -/
theorem C1_patched_image_witness :
    (runPatched ∈ (Reconcile envVulnerable request (world true "" 24)).workloads ∧
      stepPatched ∈ runPatched.Steps) ∧
    ((Reconcile envVulnerable request (world true "" 24)).workloads.map WorkloadStep.Listed =
        [web] ∧
      runPatched.Steps.map ContainerStep.Before = runPatched.Listed.Containers ∧
      runPatched.Written.Containers = runPatched.Steps.map ContainerStep.After ∧
      ∃ e, stepPatched.Patch = some ⟨stepPatched.Before.Image,
          stepPatched.Before.Image ++
            (if (policy true "" 24).Spec.TagSuffix = "" then "-sc"
              else (policy true "" 24).Spec.TagSuffix), e⟩ ∧
        (e = none → stepPatched.After.Image =
          stepPatched.Before.Image ++
            (if (policy true "" 24).Spec.TagSuffix = "" then "-sc"
              else (policy true "" 24).Spec.TagSuffix))) ∧
    runPatched.Written.Containers.map Container.Image = ["nginx:1.0-sc"] :=
  ⟨⟨List.Mem.head _, List.Mem.head _⟩,
    C1_patched_image envVulnerable request (world true "" 24) (world true "" 24)
      (world true "" 24) (policy true "" 24) [web] rfl rfl runPatched (List.Mem.head _)
      stepPatched (List.Mem.head _) ⟨[cve]⟩ rfl (by decide) rfl,
    by decide⟩

/-- C2: when the fetched policy has `AutoPatch` off (fetch and listing
succeeded), whatever the scanner, the builder and the store answer: the
deployments passed to `r.Update` are exactly the listed ones, unchanged and in
order, the builder is never called, and every container record shows no
builder call and an untouched container. -/
theorem C2_detection_only {W : Type} (env : Env W) (req : Request) (w w1 w2 : W)
    (cs : ContainerSecurity) (ds : List Deployment)
    (hget : env.Get req w = (Except.ok cs, w1))
    (hlist : env.ListDeployments req.Namespace cs.Spec.Selector w1 = (Except.ok ds, w2))
    (hauto : cs.Spec.AutoPatch = false) :
    updatesOf (Reconcile env req w).trace = ds ∧
    patchesOf (Reconcile env req w).trace = [] ∧
    (Reconcile env req w).workloads.map WorkloadStep.Listed = ds ∧
    ∀ ws ∈ (Reconcile env req w).workloads,
      ws.Written = ws.Listed ∧
      ws.Written.Containers.map Container.Image = ws.Listed.Containers.map Container.Image ∧
      ∀ st ∈ ws.Steps, st.Patch = none ∧ st.After = st.Before := by
  obtain ⟨t, cs2, e, hw, htr, -⟩ := Reconcile_pass env req w w1 w2 cs ds hget hlist
  have hinv := processDeployments_inv env cs.Spec ds
    ⟨w2, [Event.get req, Event.list req.Namespace cs.Spec.Selector]⟩
  have hl := processDeployments_listed env cs.Spec ds
    ⟨w2, [Event.get req, Event.list req.Namespace cs.Spec.Selector]⟩
  rw [← hw] at hinv hl
  have hsteps : ∀ ws ∈ (Reconcile env req w).workloads, ∀ st ∈ ws.Steps,
      st.Patch = none ∧ st.After = st.Before :=
    fun ws hws st hst => ((hinv ws hws).steps st hst).detection_only hauto
  have hwr : ∀ ws ∈ (Reconcile env req w).workloads, ws.Written = ws.Listed :=
    fun ws hws => (hinv ws hws).written_eq_listed fun st hst => (hsteps ws hws st hst).2
  refine ⟨?_, ?_, hl, fun ws hws => ⟨hwr ws hws, by rw [hwr ws hws], hsteps ws hws⟩⟩
  · rw [htr, updatesOf_append, updatesOf_append, updatesOf_workloads]
    show [] ++ _ ++ [] = ds
    rw [List.nil_append, List.append_nil, ← hl]
    exact List.map_congr_left hwr
  · rw [htr, patchesOf_append, patchesOf_append,
      patchesOf_workloads_none _ fun ws hws st hst => (hsteps ws hws st hst).1]
    rfl

/-- C2 on the scenario of the spec: `AutoPatch` off, one vulnerability
reported; `web` is written back as listed and the builder is not called. -/
theorem C2_detection_only_witness :
    (policy false "" 24).Spec.AutoPatch = false ∧
    (updatesOf (Reconcile envVulnerable request (world false "" 24)).trace = [web] ∧
      patchesOf (Reconcile envVulnerable request (world false "" 24)).trace = [] ∧
      (Reconcile envVulnerable request (world false "" 24)).workloads.map WorkloadStep.Listed =
        [web] ∧
      ∀ ws ∈ (Reconcile envVulnerable request (world false "" 24)).workloads,
        ws.Written = ws.Listed ∧
        ws.Written.Containers.map Container.Image = ws.Listed.Containers.map Container.Image ∧
        ∀ st ∈ ws.Steps, st.Patch = none ∧ st.After = st.Before) ∧
    scansOf (Reconcile envVulnerable request (world false "" 24)).trace = ["nginx:1.0"] :=
  ⟨rfl,
    C2_detection_only envVulnerable request (world false "" 24) (world false "" 24)
      (world false "" 24) (policy false "" 24) [web] rfl rfl rfl,
    by decide⟩

/-- C3: in a pass of `Reconcile` (fetch and listing succeeded), whatever the
collaborators answer: the scanner is called exactly once per container of every
listed deployment, in order, on the image the container was listed with; a
container whose scan failed has no builder call and is unchanged; a container
whose builder call failed is unchanged; and the image every container is left
with is `finalImage` of its own image, its own scan outcome, its own builder
outcome and the policy. -/
theorem C3_failures_isolated {W : Type} (env : Env W) (req : Request) (w w1 w2 : W)
    (cs : ContainerSecurity) (ds : List Deployment)
    (hget : env.Get req w = (Except.ok cs, w1))
    (hlist : env.ListDeployments req.Namespace cs.Spec.Selector w1 = (Except.ok ds, w2)) :
    scansOf (Reconcile env req w).trace =
      (ds.map fun d => d.Containers.map Container.Image).flatten ∧
    (Reconcile env req w).workloads.map WorkloadStep.Listed = ds ∧
    ∀ ws ∈ (Reconcile env req w).workloads,
      ws.Steps.map ContainerStep.Before = ws.Listed.Containers ∧
      ws.Written.Containers = ws.Steps.map ContainerStep.After ∧
      ∀ st ∈ ws.Steps,
        st.Scanned = st.Before.Image ∧
        (∀ e, st.Scan = Except.error e → st.Patch = none ∧ st.After = st.Before) ∧
        (∀ p e, st.Patch = some p → p.Error = some e → st.After = st.Before) ∧
        st.After.Image =
          finalImage cs.Spec st.Before.Image st.Scan (st.Patch.map PatchCall.Error) := by
  obtain ⟨hl, hinv⟩ := Reconcile_inv env req w w1 w2 cs ds hget hlist
  obtain ⟨t, cs2, htr⟩ := Reconcile_trace env req w w1 w2 cs ds hget hlist
  refine ⟨?_, hl, fun ws hws => ⟨(hinv ws hws).before, ?_, fun st hst => ?_⟩⟩
  · rw [htr, scansOf_append, scansOf_append, scansOf_workloads]
    show [] ++ _ ++ [] = _
    rw [List.nil_append, List.append_nil, ← hl, List.map_map]
    congr 1
    exact List.map_congr_left fun ws hws => (hinv ws hws).scanned
  · rw [(hinv ws hws).written]
  · have hst' := (hinv ws hws).steps st hst
    refine ⟨hst'.scanned, hst'.scanErr, fun p e hp he => ?_, hst'.finalImage_eq⟩
    apply hst'.unchanged_of_no_patch
    rintro ⟨q, hq, hqe⟩
    rw [hp] at hq
    cases hq
    rw [he] at hqe
    cases hqe

/-- C3 on two deployments with a failing scan (`redis:7`), a failing build
(`busybox:1`) and a failing write (`api`): all four containers are scanned, and
the two `nginx:1.0` containers are remediated all the same. -/
theorem C3_failures_isolated_witness :
    (scansOf (Reconcile envFlaky request (worldTwo true "")).trace =
        ([api, web].map fun d => d.Containers.map Container.Image).flatten ∧
      (Reconcile envFlaky request (worldTwo true "")).workloads.map WorkloadStep.Listed =
        [api, web] ∧
      ∀ ws ∈ (Reconcile envFlaky request (worldTwo true "")).workloads,
        ws.Steps.map ContainerStep.Before = ws.Listed.Containers ∧
        ws.Written.Containers = ws.Steps.map ContainerStep.After ∧
        ∀ st ∈ ws.Steps,
          st.Scanned = st.Before.Image ∧
          (∀ e, st.Scan = Except.error e → st.Patch = none ∧ st.After = st.Before) ∧
          (∀ p e, st.Patch = some p → p.Error = some e → st.After = st.Before) ∧
          st.After.Image =
            finalImage (policy true "" 24).Spec st.Before.Image st.Scan
              (st.Patch.map PatchCall.Error)) ∧
    scansOf (Reconcile envFlaky request (worldTwo true "")).trace =
      ["redis:7", "busybox:1", "nginx:1.0", "nginx:1.0"] ∧
    patchesOf (Reconcile envFlaky request (worldTwo true "")).trace =
      [("busybox:1", "busybox:1-sc"), ("nginx:1.0", "nginx:1.0-sc"),
        ("nginx:1.0", "nginx:1.0-sc")] ∧
    imagesOf (updatesOf (Reconcile envFlaky request (worldTwo true "")).trace) =
      [["redis:7", "busybox:1", "nginx:1.0-sc"], ["nginx:1.0-sc"]] ∧
    (Reconcile envFlaky request (worldTwo true "")).workloads.map WorkloadStep.UpdateErr =
      [some (Err.other "conflict"), none] :=
  ⟨C3_failures_isolated envFlaky request (worldTwo true "") (worldTwo true "")
      (worldTwo true "") (policy true "" 24) [api, web] rfl rfl,
    by decide, by decide, by decide, by decide⟩

/-- C4: `Reconcile` returns an error exactly when the fetch failed with an
error other than not-found, or the fetch succeeded and the listing failed, or
both succeeded and the write of the status (of the stamped policy, in the world
the pass and the clock read left) failed.  A not-found fetch returns no error
and the zero `ctrl.Result`.  The outcomes of the scanner, of the builder and of
the writes of deployments occur in none of the three conditions. -/
theorem C4_failure_iff {W : Type} (env : Env W) (req : Request) (w : W) :
    ((Reconcile env req w).err ≠ none ↔
      (∃ e w1, env.Get req w = (Except.error e, w1) ∧ e ≠ Err.notFound) ∨
      (∃ cs w1 e w2, env.Get req w = (Except.ok cs, w1) ∧
        env.ListDeployments req.Namespace cs.Spec.Selector w1 = (Except.error e, w2)) ∨
      (∃ cs w1 ds w2 e w5, env.Get req w = (Except.ok cs, w1) ∧
        env.ListDeployments req.Namespace cs.Spec.Selector w1 = (Except.ok ds, w2) ∧
        env.StatusUpdate
          (stampStatus cs (env.Now (processDeployments env cs.Spec ds
            ⟨w2, [Event.get req, Event.list req.Namespace cs.Spec.Selector]⟩).2.world).1)
          (env.Now (processDeployments env cs.Spec ds
            ⟨w2, [Event.get req, Event.list req.Namespace cs.Spec.Selector]⟩).2.world).2 =
          (some e, w5))) ∧
    (∀ w1, env.Get req w = (Except.error Err.notFound, w1) →
      (Reconcile env req w).err = none ∧ (Reconcile env req w).result = ⟨false, 0⟩) := by
  constructor
  · rcases hg : env.Get req w with ⟨e | cs, w1⟩
    · rw [Reconcile_get_error env req w w1 e hg]
      cases e with
      | notFound => simp [IgnoreNotFound]
      | other msg => simp [IgnoreNotFound]
    · rcases hl : env.ListDeployments req.Namespace cs.Spec.Selector w1 with ⟨e | ds, w2⟩
      · rw [Reconcile_list_error env req w w1 w2 cs e hg hl]
        exact ⟨fun _ => Or.inr (Or.inl ⟨cs, w1, e, w2, rfl, hl⟩), fun _ => by simp⟩
      · rw [Reconcile_err env req w w1 w2 cs ds hg hl]
        rcases hs : env.StatusUpdate
          (stampStatus cs (env.Now (processDeployments env cs.Spec ds
            ⟨w2, [Event.get req, Event.list req.Namespace cs.Spec.Selector]⟩).2.world).1)
          (env.Now (processDeployments env cs.Spec ds
            ⟨w2, [Event.get req, Event.list req.Namespace cs.Spec.Selector]⟩).2.world).2
          with ⟨_ | e, w5⟩
        · refine ⟨fun h => absurd rfl h, ?_⟩
          rintro (⟨e, w1', h, -⟩ | ⟨cs', w1', e, w2', h1, h2⟩ |
            ⟨cs', w1', ds', w2', e, w5', h1, h2, h3⟩)
          · cases h
          · cases h1
            rw [hl] at h2
            cases h2
          · cases h1
            rw [hl] at h2
            cases h2
            rw [hs] at h3
            cases h3
        · exact ⟨fun _ => Or.inr (Or.inr ⟨cs, w1, ds, w2, e, w5, rfl, hl, hs⟩),
            fun _ => by simp⟩
  · intro w1 hg
    rw [Reconcile_get_error env req w w1 _ hg]
    exact ⟨rfl, rfl⟩

/-- C4 on five runs: a policy that is gone (no error), a fetch that times
out, a listing that fails, a status write that fails (an error each), and a
pass with a failed scan, a failed build and a failed write of a deployment (no
error). -/
theorem C4_failure_iff_witness :
    ((Reconcile envVulnerable request worldGone).err = none ∧
      (Reconcile envVulnerable request worldGone).result = ⟨false, 0⟩) ∧
    (Reconcile envVulnerable request worldGetFails).err ≠ none ∧
    (Reconcile envVulnerable request worldListFails).err ≠ none ∧
    (Reconcile envStatusFails request (world true "" 24)).err ≠ none ∧
    (Reconcile envFlaky request (worldTwo true "")).err = none :=
  ⟨(C4_failure_iff envVulnerable request worldGone).2 worldGone rfl,
    (C4_failure_iff envVulnerable request worldGetFails).1.mpr
      (Or.inl ⟨Err.other "timeout", worldGetFails, rfl, by decide⟩),
    (C4_failure_iff envVulnerable request worldListFails).1.mpr
      (Or.inr (Or.inl ⟨policy true "" 24, worldListFails, Err.other "timeout", worldListFails,
        rfl, rfl⟩)),
    (C4_failure_iff envStatusFails request (world true "" 24)).1.mpr
      (Or.inr (Or.inr ⟨policy true "" 24, world true "" 24, [web], world true "" 24,
        Err.other "conflict", _, rfl, rfl, rfl⟩)),
    by decide⟩

/-- C5 (amended): in a pass of `Reconcile` (fetch and listing succeeded),
whatever the scanner, the builder and the writes of deployments answer: the
last two calls are the read of the clock and the one and only write of the
status; the status written has `LastScanTime` equal to the time read;
`LastUpdateTime` equals the time read when `AutoPatch` is on and is the fetched
`LastUpdateTime` when `AutoPatch` is off.  Hence it equals the time read if and
only if `AutoPatch` is on or the fetched `LastUpdateTime` already was that
time. -/
theorem C5_status_times {W : Type} (env : Env W) (req : Request) (w w1 w2 : W)
    (cs : ContainerSecurity) (ds : List Deployment)
    (hget : env.Get req w = (Except.ok cs, w1))
    (hlist : env.ListDeployments req.Namespace cs.Spec.Selector w1 = (Except.ok ds, w2)) :
    ∃ (t : Time) (cs2 : ContainerSecurity) (pre : List Event),
      (Reconcile env req w).trace = pre ++ [Event.now t, Event.statusUpdate cs2] ∧
      statusUpdatesOf (Reconcile env req w).trace = [cs2] ∧
      cs2.Namespace = cs.Namespace ∧ cs2.Name = cs.Name ∧ cs2.Spec = cs.Spec ∧
      cs2.Status.LastScanTime = some t ∧
      (cs.Spec.AutoPatch = true → cs2.Status.LastUpdateTime = some t) ∧
      (cs.Spec.AutoPatch = false → cs2.Status.LastUpdateTime = cs.Status.LastUpdateTime) ∧
      (cs2.Status.LastUpdateTime = some t ↔
        (cs.Spec.AutoPatch = true ∨ cs.Status.LastUpdateTime = some t)) := by
  obtain ⟨t, cs2, e, -, htr, hns, hname, hspec, hscan, hon, hoff, -⟩ :=
    Reconcile_pass env req w w1 w2 cs ds hget hlist
  refine ⟨t, cs2, _, htr, ?_, hns, hname, hspec, hscan, hon, hoff, ?_⟩
  · rw [htr, statusUpdatesOf_append, statusUpdatesOf_append, statusUpdatesOf_workloads]
    rfl
  · cases hauto : cs.Spec.AutoPatch with
    | true => exact ⟨fun _ => Or.inl rfl, fun _ => hon hauto⟩
    | false =>
      rw [hoff hauto]
      exact ⟨fun h => Or.inr h, fun h => h.elim (fun h' => by cases h') id⟩

/-- C5 (amended) on the two scenarios of the spec: with `AutoPatch` on both
times are the time read from the clock; with `AutoPatch` off only
`LastScanTime` is set. -/
theorem C5_status_times_witness :
    (∃ (t : Time) (cs2 : ContainerSecurity) (pre : List Event),
      (Reconcile envVulnerable request (world false "" 24)).trace =
        pre ++ [Event.now t, Event.statusUpdate cs2] ∧
      statusUpdatesOf (Reconcile envVulnerable request (world false "" 24)).trace = [cs2] ∧
      cs2.Namespace = (policy false "" 24).Namespace ∧ cs2.Name = (policy false "" 24).Name ∧
      cs2.Spec = (policy false "" 24).Spec ∧
      cs2.Status.LastScanTime = some t ∧
      ((policy false "" 24).Spec.AutoPatch = true → cs2.Status.LastUpdateTime = some t) ∧
      ((policy false "" 24).Spec.AutoPatch = false →
        cs2.Status.LastUpdateTime = (policy false "" 24).Status.LastUpdateTime) ∧
      (cs2.Status.LastUpdateTime = some t ↔
        ((policy false "" 24).Spec.AutoPatch = true ∨
          (policy false "" 24).Status.LastUpdateTime = some t))) ∧
    statusUpdatesOf (Reconcile envVulnerable request (world false "" 24)).trace =
      [{ policy false "" 24 with Status := ⟨some 101, none⟩ }] ∧
    statusUpdatesOf (Reconcile envVulnerable request (world true "" 24)).trace =
      [{ policy true "" 24 with Status := ⟨some 101, some 101⟩ }] :=
  ⟨C5_status_times envVulnerable request (world false "" 24) (world false "" 24)
      (world false "" 24) (policy false "" 24) [web] rfl rfl,
    by decide, by decide⟩

/-- C5 as stated fails: with `AutoPatch` off and a fetched `LastUpdateTime`
that already is the time the clock reads (101), the status written has
`LastUpdateTime` equal to the reconciliation time although `AutoPatch` is
off. -/
theorem C5_counterexample :
    policyStamped.Spec.AutoPatch = false ∧
    (Reconcile envVulnerable request worldStamped).err = none ∧
    (Reconcile envVulnerable request worldStamped).trace.getLast? =
      some (Event.statusUpdate { policyStamped with Status := ⟨some 101, some 101⟩ }) ∧
    Event.now 101 ∈ (Reconcile envVulnerable request worldStamped).trace ∧
    ¬ (({ policyStamped with Status := ⟨some 101, some 101⟩ } :
          ContainerSecurity).Status.LastUpdateTime = some 101 ↔
        policyStamped.Spec.AutoPatch = true) := by
  decide

/-- C6 (amended): for a policy whose `ScanInterval` is between 1 and
2,562,047 hours, a pass of `Reconcile` that returns no error returns a requeue
delay of exactly `ScanInterval` × 3,600,000,000,000 nanoseconds. -/
theorem C6_requeue_delay {W : Type} (env : Env W) (req : Request) (w w1 w2 : W)
    (cs : ContainerSecurity) (ds : List Deployment)
    (hget : env.Get req w = (Except.ok cs, w1))
    (hlist : env.ListDeployments req.Namespace cs.Spec.Selector w1 = (Except.ok ds, w2))
    (hok : (Reconcile env req w).err = none)
    (hpos : 0 < cs.Spec.ScanInterval) (hmax : cs.Spec.ScanInterval ≤ 2562047) :
    (Reconcile env req w).result.RequeueAfter = cs.Spec.ScanInterval * 3600000000000 ∧
    (Reconcile env req w).result.Requeue = false := by
  obtain ⟨t, cs2, e, -, -, -, -, -, -, -, -, herr, hres, -⟩ :=
    Reconcile_pass env req w w1 w2 cs ds hget hlist
  rw [hok] at herr
  rw [hres herr.symm]
  refine ⟨?_, rfl⟩
  show Duration.mul (Duration cs.Spec.ScanInterval) Hour = _
  unfold Duration.mul Duration Hour
  rw [wrapInt64_of_range cs.Spec.ScanInterval (by omega) (by omega)]
  exact wrapInt64_of_range _ (by omega) (by omega)

/-- C6 (amended) at the largest interval that fits: 2,562,047 hours. -/
theorem C6_requeue_delay_witness :
    ((Reconcile envVulnerable request (world true "" 2562047)).err = none ∧
      0 < (policy true "" 2562047).Spec.ScanInterval ∧
      (policy true "" 2562047).Spec.ScanInterval ≤ 2562047) ∧
    (Reconcile envVulnerable request (world true "" 2562047)).result.RequeueAfter =
      (policy true "" 2562047).Spec.ScanInterval * 3600000000000 ∧
    (Reconcile envVulnerable request (world true "" 2562047)).result.Requeue = false :=
  ⟨⟨rfl, by decide, by decide⟩,
    C6_requeue_delay envVulnerable request (world true "" 2562047) (world true "" 2562047)
      (world true "" 2562047) (policy true "" 2562047) [web] rfl rfl rfl (by decide)
      (by decide)⟩

/-- C6 as stated fails: with `ScanInterval` = 2,562,048 (a positive integer that
fits 32 bits) the pass succeeds and the returned delay is the wrapped value
-9,223,371,273,709,551,616, not 2,562,048 × 3,600,000,000,000. -/
theorem C6_counterexample :
    0 < (policy true "" 2562048).Spec.ScanInterval ∧
    (Reconcile envVulnerable request (world true "" 2562048)).err = none ∧
    (Reconcile envVulnerable request (world true "" 2562048)).result.RequeueAfter =
      -9223371273709551616 ∧
    (Reconcile envVulnerable request (world true "" 2562048)).result.RequeueAfter ≠
      2562048 * 3600000000000 := by
  decide

/-- C7: in a pass of `Reconcile` (fetch and listing succeeded), whatever the
collaborators answer (failed writes included): the calls of the pass are those
of the listed deployments one after the other, each deployment contributing the
calls of its containers followed by one `r.Update`; so there is exactly one
write per listed deployment, in listing order.  The written object is the
listed one with its containers replaced by the containers as the inner loop
left them: a remediated container differs from the listed one in its image
only, any other container is identical.  A deployment without a remediated
container, in particular one without containers, is written back as read. -/
theorem C7_one_write_per_workload {W : Type} (env : Env W) (req : Request) (w w1 w2 : W)
    (cs : ContainerSecurity) (ds : List Deployment)
    (hget : env.Get req w = (Except.ok cs, w1))
    (hlist : env.ListDeployments req.Namespace cs.Spec.Selector w1 = (Except.ok ds, w2)) :
    (∃ (t : Time) (cs2 : ContainerSecurity),
      (Reconcile env req w).trace =
        [Event.get req, Event.list req.Namespace cs.Spec.Selector] ++
          ((Reconcile env req w).workloads.map fun ws =>
            (ws.Steps.map ContainerStep.events).flatten ++ [Event.update ws.Written]).flatten ++
          [Event.now t, Event.statusUpdate cs2]) ∧
    updatesOf (Reconcile env req w).trace =
      (Reconcile env req w).workloads.map WorkloadStep.Written ∧
    (updatesOf (Reconcile env req w).trace).length = ds.length ∧
    (Reconcile env req w).workloads.map WorkloadStep.Listed = ds ∧
    ∀ ws ∈ (Reconcile env req w).workloads,
      (∀ st ∈ ws.Steps, updatesOf st.events = []) ∧
      ws.Steps.map ContainerStep.Before = ws.Listed.Containers ∧
      ws.Written = { ws.Listed with Containers := ws.Steps.map ContainerStep.After } ∧
      (∀ st ∈ ws.Steps,
        (st.Remediated → st.After = { st.Before with Image := st.Before.Image ++
          (if cs.Spec.TagSuffix = "" then "-sc" else cs.Spec.TagSuffix) }) ∧
        (¬ st.Remediated → st.After = st.Before)) ∧
      ((∀ st ∈ ws.Steps, ¬ st.Remediated) → ws.Written = ws.Listed) ∧
      (ws.Listed.Containers = [] → ws.Written = ws.Listed) := by
  obtain ⟨hl, hinv⟩ := Reconcile_inv env req w w1 w2 cs ds hget hlist
  obtain ⟨t, cs2, htr⟩ := Reconcile_trace env req w w1 w2 cs ds hget hlist
  have hupd : updatesOf (Reconcile env req w).trace =
      (Reconcile env req w).workloads.map WorkloadStep.Written := by
    rw [htr, updatesOf_append, updatesOf_append, updatesOf_workloads]
    show [] ++ _ ++ [] = _
    rw [List.nil_append, List.append_nil]
  refine ⟨⟨t, cs2, htr⟩, hupd, ?_, hl, fun ws hws => ?_⟩
  · rw [hupd, List.length_map, ← hl, List.length_map]
  · have hws' := hinv ws hws
    have hno : (∀ st ∈ ws.Steps, ¬ st.Remediated) → ws.Written = ws.Listed :=
      fun h => hws'.written_eq_listed fun st hst => (hws'.steps st hst).unchanged_of_no_patch (h st hst)
    refine ⟨fun st _ => updatesOf_step st, hws'.before, hws'.written,
      fun st hst => ⟨(hws'.steps st hst).remediated, (hws'.steps st hst).unchanged_of_no_patch⟩,
      hno, fun hempty => hno ?_⟩
    have hnil : ws.Steps = [] := by
      have := hws'.before
      rw [hempty] at this
      exact List.map_eq_nil_iff.mp this
    intro st hst
    rw [hnil] at hst
    cases hst

/-- C7 on two deployments with a failing scan, a failing build and a failing
write of the first deployment: both deployments are written, in order. -/
theorem C7_one_write_per_workload_witness :
    ((∃ (t : Time) (cs2 : ContainerSecurity),
        (Reconcile envFlaky request (worldTwo true "")).trace =
          [Event.get request, Event.list request.Namespace (policy true "" 24).Spec.Selector] ++
            ((Reconcile envFlaky request (worldTwo true "")).workloads.map fun ws =>
              (ws.Steps.map ContainerStep.events).flatten ++ [Event.update ws.Written]).flatten ++
            [Event.now t, Event.statusUpdate cs2]) ∧
      updatesOf (Reconcile envFlaky request (worldTwo true "")).trace =
        (Reconcile envFlaky request (worldTwo true "")).workloads.map WorkloadStep.Written ∧
      (updatesOf (Reconcile envFlaky request (worldTwo true "")).trace).length =
        [api, web].length ∧
      (Reconcile envFlaky request (worldTwo true "")).workloads.map WorkloadStep.Listed =
        [api, web] ∧
      ∀ ws ∈ (Reconcile envFlaky request (worldTwo true "")).workloads,
        (∀ st ∈ ws.Steps, updatesOf st.events = []) ∧
        ws.Steps.map ContainerStep.Before = ws.Listed.Containers ∧
        ws.Written = { ws.Listed with Containers := ws.Steps.map ContainerStep.After } ∧
        (∀ st ∈ ws.Steps,
          (st.Remediated → st.After = { st.Before with Image := st.Before.Image ++
            (if (policy true "" 24).Spec.TagSuffix = "" then "-sc"
              else (policy true "" 24).Spec.TagSuffix) }) ∧
          (¬ st.Remediated → st.After = st.Before)) ∧
        ((∀ st ∈ ws.Steps, ¬ st.Remediated) → ws.Written = ws.Listed) ∧
        (ws.Listed.Containers = [] → ws.Written = ws.Listed)) ∧
    updatesOf (Reconcile envFlaky request (worldTwo true "")).trace =
      [{ api with Containers := [redis, busybox, { nginx with Image := "nginx:1.0-sc" }] },
        { web with Containers := [{ nginx with Image := "nginx:1.0-sc" }] }] :=
  ⟨C7_one_write_per_workload envFlaky request (worldTwo true "") (worldTwo true "")
      (worldTwo true "") (policy true "" 24) [api, web] rfl rfl,
    by decide⟩

/-- C8: an early exit acts on nothing.  When the fetch fails (not-found or
not), the only call of `Reconcile` is the fetch; when the listing fails, the
only calls are the fetch and the listing.  In both cases there is no scanner
call, no builder call, no write of a deployment and no write of the status, the
world is left as the failing call left it, and the result is the zero
`ctrl.Result` (no requeue delay). -/
theorem C8_early_exit {W : Type} (env : Env W) (req : Request) (w : W) :
    (∀ e w1, env.Get req w = (Except.error e, w1) →
      (Reconcile env req w).trace = [Event.get req] ∧
      scansOf (Reconcile env req w).trace = [] ∧
      patchesOf (Reconcile env req w).trace = [] ∧
      updatesOf (Reconcile env req w).trace = [] ∧
      statusUpdatesOf (Reconcile env req w).trace = [] ∧
      (Reconcile env req w).workloads = [] ∧
      (Reconcile env req w).world = w1 ∧
      (Reconcile env req w).result = ⟨false, 0⟩) ∧
    (∀ cs w1 e w2, env.Get req w = (Except.ok cs, w1) →
      env.ListDeployments req.Namespace cs.Spec.Selector w1 = (Except.error e, w2) →
      (Reconcile env req w).trace =
        [Event.get req, Event.list req.Namespace cs.Spec.Selector] ∧
      scansOf (Reconcile env req w).trace = [] ∧
      patchesOf (Reconcile env req w).trace = [] ∧
      updatesOf (Reconcile env req w).trace = [] ∧
      statusUpdatesOf (Reconcile env req w).trace = [] ∧
      (Reconcile env req w).workloads = [] ∧
      (Reconcile env req w).world = w2 ∧
      (Reconcile env req w).result = ⟨false, 0⟩) := by
  constructor
  · intro e w1 hget
    rw [Reconcile_get_error env req w w1 e hget]
    exact ⟨rfl, rfl, rfl, rfl, rfl, rfl, rfl, rfl⟩
  · intro cs w1 e w2 hget hlist
    rw [Reconcile_list_error env req w w1 w2 cs e hget hlist]
    exact ⟨rfl, rfl, rfl, rfl, rfl, rfl, rfl, rfl⟩

/-- C8 on a policy that is gone and on a listing that fails. -/
theorem C8_early_exit_witness :
    ((Reconcile envVulnerable request worldGone).trace = [Event.get request] ∧
      scansOf (Reconcile envVulnerable request worldGone).trace = [] ∧
      patchesOf (Reconcile envVulnerable request worldGone).trace = [] ∧
      updatesOf (Reconcile envVulnerable request worldGone).trace = [] ∧
      statusUpdatesOf (Reconcile envVulnerable request worldGone).trace = [] ∧
      (Reconcile envVulnerable request worldGone).workloads = [] ∧
      (Reconcile envVulnerable request worldGone).world = worldGone ∧
      (Reconcile envVulnerable request worldGone).result = ⟨false, 0⟩) ∧
    ((Reconcile envVulnerable request worldListFails).trace =
        [Event.get request, Event.list request.Namespace (policy true "" 24).Spec.Selector] ∧
      scansOf (Reconcile envVulnerable request worldListFails).trace = [] ∧
      patchesOf (Reconcile envVulnerable request worldListFails).trace = [] ∧
      updatesOf (Reconcile envVulnerable request worldListFails).trace = [] ∧
      statusUpdatesOf (Reconcile envVulnerable request worldListFails).trace = [] ∧
      (Reconcile envVulnerable request worldListFails).workloads = [] ∧
      (Reconcile envVulnerable request worldListFails).world = worldListFails ∧
      (Reconcile envVulnerable request worldListFails).result = ⟨false, 0⟩) :=
  ⟨(C8_early_exit envVulnerable request worldGone).1 Err.notFound worldGone rfl,
    (C8_early_exit envVulnerable request worldListFails).2 (policy true "" 24) worldListFails
      (Err.other "timeout") worldListFails rfl rfl⟩

/-- C9: in a pass of `Reconcile` (fetch and listing succeeded), a container
whose scan succeeded with zero vulnerability records has no builder call, its
only call is the scan of its own image, and it is written back unchanged,
whatever `AutoPatch` and `TagSuffix` are. -/
theorem C9_clean_scan_unchanged {W : Type} (env : Env W) (req : Request) (w w1 w2 : W)
    (cs : ContainerSecurity) (ds : List Deployment)
    (hget : env.Get req w = (Except.ok cs, w1))
    (hlist : env.ListDeployments req.Namespace cs.Spec.Selector w1 = (Except.ok ds, w2))
    (ws : WorkloadStep) (hws : ws ∈ (Reconcile env req w).workloads)
    (st : ContainerStep) (hst : st ∈ ws.Steps) (r : TrivyResult)
    (hscan : st.Scan = Except.ok r) (hzero : r.Vulnerabilities.length = 0) :
    ws.Steps.map ContainerStep.Before = ws.Listed.Containers ∧
    ws.Written.Containers = ws.Steps.map ContainerStep.After ∧
    st.Patch = none ∧
    st.events = [Event.scan st.Before.Image] ∧
    st.After = st.Before ∧
    st.After.Image = st.Before.Image := by
  obtain ⟨-, hinv⟩ := Reconcile_inv env req w w1 w2 cs ds hget hlist
  have hst' := (hinv ws hws).steps st hst
  obtain ⟨hp, ha⟩ := hst'.idle r hscan (by rw [hzero]; simp)
  refine ⟨(hinv ws hws).before, ?_, hp, ?_, ha, by rw [ha]⟩
  · rw [(hinv ws hws).written]
  · simp only [ContainerStep.events, hp, hst'.scanned]

/-- C9 on `nginx:1.0` with a scan that finds nothing, `AutoPatch` on. -/
theorem C9_clean_scan_unchanged_witness :
    (runClean ∈ (Reconcile envClean request (world true "-fixed" 24)).workloads ∧
      stepClean ∈ runClean.Steps ∧
      stepClean.Scan = Except.ok ⟨[]⟩) ∧
    (runClean.Steps.map ContainerStep.Before = runClean.Listed.Containers ∧
      runClean.Written.Containers = runClean.Steps.map ContainerStep.After ∧
      stepClean.Patch = none ∧
      stepClean.events = [Event.scan stepClean.Before.Image] ∧
      stepClean.After = stepClean.Before ∧
      stepClean.After.Image = stepClean.Before.Image) ∧
    updatesOf (Reconcile envClean request (world true "-fixed" 24)).trace = [web] :=
  ⟨⟨List.Mem.head _, List.Mem.head _, rfl⟩,
    C9_clean_scan_unchanged envClean request (world true "-fixed" 24) (world true "-fixed" 24)
      (world true "-fixed" 24) (policy true "-fixed" 24) [web] rfl rfl runClean
      (List.Mem.head _) stepClean (List.Mem.head _) ⟨[]⟩ rfl rfl,
    by decide⟩

/-- C10: the suffix compounds, container by container.  Take `n` consecutive
passes of `Reconcile`, pass `j` starting in world `w j`, fetching a policy with
`AutoPatch` on and effective suffix `s` (`TagSuffix`, or `-sc` when empty) and
listing `ds j`, and suppose the next pass lists what this pass wrote (`ds (j+1)`
are the deployments passed to `r.Update` in pass `j`).  Take the container at
position `i` of deployment `k`, with image `img` before the first pass, and
suppose that in each pass the scan of this container reports at least one
vulnerability and its builder call succeeds; nothing is assumed of the other
containers.  Then after `m ≤ n` passes its image is `img` followed by `m` copies
of `s` (after one pass `img ++ s`, after two `img ++ s ++ s`), `s` is not empty,
and every pass changes the image again. -/
theorem C10_suffix_compounds {W : Type} (env : Env W) (req : Request) (n : Nat)
    (w w1 w2 : Nat → W) (cs : Nat → ContainerSecurity) (ds : Nat → List Deployment)
    (s : String) (k i : Nat) (img : String)
    (hget : ∀ j < n, env.Get req (w j) = (Except.ok (cs j), w1 j))
    (hlist : ∀ j < n, env.ListDeployments req.Namespace (cs j).Spec.Selector (w1 j) =
      (Except.ok (ds j), w2 j))
    (hauto : ∀ j < n, (cs j).Spec.AutoPatch = true)
    (hsfx : ∀ j < n, (if (cs j).Spec.TagSuffix = "" then "-sc" else (cs j).Spec.TagSuffix) = s)
    (himg : imageAt (ds 0) k i = some img)
    (hvuln : ∀ j < n, ∀ st, stepAt (Reconcile env req (w j)).workloads k i = some st →
      ∃ r, st.Scan = Except.ok r ∧ 0 < r.Vulnerabilities.length)
    (hbuild : ∀ j < n, ∀ st, stepAt (Reconcile env req (w j)).workloads k i = some st →
      ∀ p, st.Patch = some p → p.Error = none)
    (hstore : ∀ j < n, ds (j + 1) = updatesOf (Reconcile env req (w j)).trace) :
    (∀ m ≤ n, imageAt (ds m) k i = some (img ++ String.join (List.replicate m s))) ∧
    (1 ≤ n → imageAt (ds 1) k i = some (img ++ s)) ∧
    (2 ≤ n → imageAt (ds 2) k i = some (img ++ s ++ s)) ∧
    (0 < n → s ≠ "") ∧
    ∀ j < n, imageAt (ds (j + 1)) k i ≠ imageAt (ds j) k i := by
  have hs : 0 < n → s ≠ "" := by
    intro hn
    rw [← hsfx 0 hn]
    exact suffixOf_ne_empty (cs 0).Spec
  have hmain : ∀ m ≤ n,
      imageAt (ds m) k i = some (img ++ String.join (List.replicate m s)) := by
    intro m
    induction m with
    | zero =>
      intro _
      rw [himg]
      simp [String.join]
    | succ m ih =>
      intro hm
      have hlt : m < n := hm
      have hpass := Reconcile_imageAt env req (w m) (w1 m) (w2 m) (cs m) (ds m)
        (hget m hlt) (hlist m hlt) (hauto m hlt) k i _ (ih (Nat.le_of_lt hlt))
        (hvuln m hlt) (hbuild m hlt)
      rw [hstore m hlt,
        Reconcile_updates env req (w m) (w1 m) (w2 m) (cs m) (ds m) (hget m hlt)
          (hlist m hlt), hpass]
      have hsuf : suffixOf (cs m).Spec = s := hsfx m hlt
      rw [hsuf, join_replicate_succ, String.append_assoc]
  refine ⟨hmain, fun h1 => ?_, fun h2 => ?_, hs, fun j hj => ?_⟩
  · rw [hmain 1 h1]
    simp [String.join]
  · rw [hmain 2 h2]
    simp [String.join, String.append_assoc]
  · rw [hmain (j + 1) hj, hmain j (Nat.le_of_lt hj), join_replicate_succ]
    intro h
    exact append_suffix_ne img _ s (hs (Nat.lt_of_le_of_lt (Nat.zero_le j) hj))
      (Option.some.inj h)

/-- C10 on two passes over `cache` with the default suffix: `nginx:1.0`, the
second container, becomes `nginx:1.0-sc` and then `nginx:1.0-sc-sc`, while its
sibling `redis:7` scans clean and stays as it is. -/
theorem C10_suffix_compounds_witness :
    ((∀ m ≤ 2, imageAt (worldAt m).deployments 0 1 =
        some ("nginx:1.0" ++ String.join (List.replicate m "-sc"))) ∧
      (1 ≤ 2 → imageAt (worldAt 1).deployments 0 1 = some ("nginx:1.0" ++ "-sc")) ∧
      (2 ≤ 2 → imageAt (worldAt 2).deployments 0 1 = some ("nginx:1.0" ++ "-sc" ++ "-sc")) ∧
      (0 < 2 → "-sc" ≠ "") ∧
      ∀ j < 2, imageAt (worldAt (j + 1)).deployments 0 1 ≠
        imageAt (worldAt j).deployments 0 1) ∧
    imagesOf (worldAt 0).deployments = [["redis:7", "nginx:1.0"]] ∧
    imagesOf (worldAt 1).deployments = [["redis:7", "nginx:1.0-sc"]] ∧
    imagesOf (worldAt 2).deployments = [["redis:7", "nginx:1.0-sc-sc"]] :=
  ⟨C10_suffix_compounds envMixed request 2 worldAt worldAt worldAt
      (fun j => (worldAt j).policyOr) (fun j => (worldAt j).deployments) "-sc" 0 1 "nginx:1.0"
      (by intro j hj; interval_cases j <;> rfl)
      (by intro j hj; interval_cases j <;> rfl)
      (by intro j hj; interval_cases j <;> rfl)
      (by intro j hj; interval_cases j <;> rfl)
      rfl
      (by
        intro j hj st hst
        interval_cases j
        · obtain rfl : _ = st := Option.some.inj hst
          exact ⟨⟨[cve]⟩, rfl, by decide⟩
        · obtain rfl : _ = st := Option.some.inj hst
          exact ⟨⟨[cve]⟩, rfl, by decide⟩)
      (by
        intro j hj st hst p hp
        interval_cases j
        · obtain rfl : _ = st := Option.some.inj hst
          obtain rfl : _ = p := Option.some.inj hp
          rfl
        · obtain rfl : _ = st := Option.some.inj hst
          obtain rfl : _ = p := Option.some.inj hp
          rfl)
      (by intro j hj; interval_cases j <;> rfl),
    by decide, by decide, by decide⟩

end SecuredContainer
